import Mathlib

/-!
# Chat widget (`FE/src/components/ChatBot.jsx`)

A shallow embedding of the `ChatBot` React component: its four `useState`
cells, the `getBotResponse` helper, the `handleSend` handler (split at its
single `await`), and the event loop induced by the rendered controls.

Conventions of the embedding:

* JavaScript strings are Lean `String`s (sequences of Unicode scalar values).
* `Date.now()` and `new Date()` are clock readings passed in as integers
  (milliseconds since the epoch).
* The outcome of `fetch` and of `response.json()` is an input of the model.
* `console.error` and the auto-scroll effect do not touch the component state
  and are left out.
-/

namespace ChatBot

/-! ## JavaScript values and errors -/

/-- JavaScript values as far as the widget can observe them: `undefined` and
the values produced by parsing a JSON document.  An object is the list of its
members in document order; a number is kept as an integer, the widget never
looks inside one. -/
inductive JsVal where
  | undefined
  | null
  | bool (b : Bool)
  | num (n : Int)
  | str (s : String)
  | arr (items : List JsVal)
  | obj (members : List (String × JsVal))

/-- Exceptions that can be raised inside `getBotResponse`. -/
inductive JsError where
  /-- Rejection of `fetch`: the request never produced a response. -/
  | network (message : String)
  /-- The widget's own `new Error(...)` for a response that is not ok. -/
  | http (message : String)
  /-- Rejection of `response.json()`: the body could not be read or parsed. -/
  | body (message : String)
  /-- Property access on `null` or `undefined`. -/
  | type (message : String)
  deriving DecidableEq, Repr

/-- Own property `key` of an object given by its members; when a key occurs
more than once in the document the last occurrence wins. -/
def ownProperty (key : String) (members : List (String × JsVal)) : Option JsVal :=
  (members.reverse.find? (fun kv => kv.1 == key)).map (fun kv => kv.2)

/-- The expression `v.key` for a property name that no built-in prototype
defines (such as `reply`): it throws on `undefined` and `null`, reads the own
property of an object, and evaluates to `undefined` on everything else. -/
def getProperty (v : JsVal) (key : String) : Except JsError JsVal :=
  match v with
  | .undefined => .error (.type ("Cannot read properties of undefined (reading " ++ key ++ ")"))
  | .null => .error (.type ("Cannot read properties of null (reading " ++ key ++ ")"))
  | .obj members =>
    match ownProperty key members with
    | some x => .ok x
    | none => .ok .undefined
  | _ => .ok .undefined

/-! ## `String.prototype.trim` -/

/-- The code points removed by `trim`: ECMAScript WhiteSpace and
LineTerminator. -/
def isWhiteSpace (c : Char) : Bool :=
  let n := c.toNat
  n == 0x09 || n == 0x0A || n == 0x0B || n == 0x0C || n == 0x0D || n == 0x20 ||
  n == 0xA0 || n == 0x1680 || (0x2000 ≤ n && n ≤ 0x200A) || n == 0x2028 ||
  n == 0x2029 || n == 0x202F || n == 0x205F || n == 0x3000 || n == 0xFEFF

/-- Strip leading and trailing white space from a list of code points. -/
def trimChars (cs : List Char) : List Char :=
  ((cs.dropWhile isWhiteSpace).reverse.dropWhile isWhiteSpace).reverse

/-- The method `String.prototype.trim`. -/
def trim (s : String) : String :=
  String.mk (trimChars s.data)

/-! ## `JSON.stringify` on `{ message: userMessage }` -/

/-- One lower-case hexadecimal digit. -/
def hexDigit (n : Nat) : Char :=
  if n < 10 then Char.ofNat (48 + n) else Char.ofNat (87 + n)

/-- The escape `\uXXXX` of a code unit. -/
def unicodeEscape (n : Nat) : List Char :=
  [Char.ofNat 0x5C, 'u', hexDigit (n / 4096 % 16), hexDigit (n / 256 % 16),
    hexDigit (n / 16 % 16), hexDigit (n % 16)]

/-- How `JSON.stringify` writes one code point inside a string literal. -/
def quoteJSONChar (c : Char) : List Char :=
  let n := c.toNat
  if n = 0x08 then [Char.ofNat 0x5C, 'b']
  else if n = 0x09 then [Char.ofNat 0x5C, 't']
  else if n = 0x0A then [Char.ofNat 0x5C, 'n']
  else if n = 0x0C then [Char.ofNat 0x5C, 'f']
  else if n = 0x0D then [Char.ofNat 0x5C, 'r']
  else if n = 0x22 then [Char.ofNat 0x5C, Char.ofNat 0x22]
  else if n = 0x5C then [Char.ofNat 0x5C, Char.ofNat 0x5C]
  else if n < 0x20 then unicodeEscape n
  else [c]

/-- The abstract operation QuoteJSONString: the JSON string literal of `s`. -/
def quoteJSONString (s : String) : String :=
  String.mk ([Char.ofNat 0x22] ++ s.data.flatMap quoteJSONChar ++ [Char.ofNat 0x22])

/-- The call `JSON.stringify({ message: userMessage })` for a string
`userMessage`. -/
def stringifyMessage (userMessage : String) : String :=
  "\x7b\"message\":" ++ quoteJSONString userMessage ++ "\x7d"

/-! ## Component state -/

/-- The `sender` field of a message. -/
inductive Sender where
  | user
  | bot
  deriving DecidableEq, Repr

/-- An element of the `messages` array. -/
structure Message where
  id : Int
  text : JsVal
  sender : Sender
  timestamp : Int

/-- The four `useState` cells of the component. -/
structure ChatState where
  messages : List Message
  input : String
  isTyping : Bool
  error : Option String

/-- The state at mount: `useState([])`, `useState("")`, `useState(false)`,
`useState(null)`. -/
def initialState : ChatState :=
  { messages := [], input := "", isTyping := false, error := none }

/-- The setter `setMessages` called with an updater function. -/
def setMessages (s : ChatState) (f : List Message → List Message) : ChatState :=
  { s with messages := f s.messages }

/-- The setter `setInput`. -/
def setInput (s : ChatState) (value : String) : ChatState :=
  { s with input := value }

/-- The setter `setError`. -/
def setError (s : ChatState) (value : Option String) : ChatState :=
  { s with error := value }

/-- The setter `setIsTyping`. -/
def setIsTyping (s : ChatState) (value : Bool) : ChatState :=
  { s with isTyping := value }

/-! ## The request -/

/-- The arguments of one `fetch` call. -/
structure Request where
  url : String
  method : String
  headers : List (String × String)
  body : String
  deriving DecidableEq, Repr

/-- The constant `API_URL`: `import.meta.env.VITE_API_URL || "http://localhost:8000"`.
The environment entry is a string or absent; `||` replaces both an absent
entry and the empty string, the only falsy string. -/
def API_URL (env : Option String) : String :=
  match env with
  | none => "http://localhost:8000"
  | some v => if v = "" then "http://localhost:8000" else v

/-- The `fetch` call made by `getBotResponse(userMessage)`. -/
def fetchRequest (env : Option String) (userMessage : String) : Request :=
  { url := API_URL env ++ "/chat"
    method := "POST"
    headers := [("Content-Type", "application/json")]
    body := stringifyMessage userMessage }

/-- How `response.json()` settles. -/
inductive BodyOutcome where
  | rejected (e : JsError)
  | parsed (data : JsVal)

/-- How the promise returned by `fetch` settles. -/
inductive FetchOutcome where
  | rejected (e : JsError)
  | response (status : Nat) (body : BodyOutcome)

/-- The getter `response.ok`: the status is in the range 200 to 299. -/
def responseOk (status : Nat) : Bool :=
  200 ≤ status && status ≤ 299

/-- The part of `getBotResponse` after `await fetch(...)`: the value its
promise resolves to, or the error it rejects with.  The `catch` block logs
and rethrows, so an error passes through unchanged. -/
def getBotResponse (o : FetchOutcome) : Except JsError JsVal :=
  match o with
  | .rejected e => .error e
  | .response status body =>
    if !responseOk status then
      .error (.http ("HTTP error! status: " ++ toString status))
    else
      match body with
      | .rejected e => .error e
      | .parsed data => getProperty data "reply"

/-! ## `handleSend` -/

/-- The fixed text of the bot message appended when the call fails. -/
def fallbackText : String :=
  "Sorry, I'm having trouble connecting. Please check if the backend is running."

/-- The fixed value given to `setError` when the call fails. -/
def errorNote : String :=
  "Failed to get response. Please try again."

/-- The synchronous part of `handleSend`, up to the `await`: the new state and
the `fetch` calls issued.  `now` is `Date.now()`, `stamp` is `new Date()`. -/
def handleSendBegin (env : Option String) (s : ChatState) (now stamp : Int) :
    ChatState × List Request :=
  if trim s.input = "" then (s, [])
  else
    let userMessage := trim s.input
    let newUserMessage : Message :=
      { id := now, text := .str userMessage, sender := .user, timestamp := stamp }
    let s1 := setMessages s (fun prev => prev ++ [newUserMessage])
    let s2 := setInput s1 ""
    let s3 := setError s2 none
    let s4 := setIsTyping s3 true
    (s4, [fetchRequest env userMessage])

/-- The part of `handleSend` after the `await`: `r` is how
`getBotResponse(userMessage)` settled, `now` is `Date.now()` and `stamp` is
`new Date()` at that moment.  Returns the state and how the handler completes
(`.ok ()` normally, `.error e` when `e` escapes). -/
def handleSendSettle (s : ChatState) (r : Except JsError JsVal) (now stamp : Int) :
    ChatState × Except JsError Unit :=
  -- try
  let tried : ChatState × Except JsError Unit :=
    match r with
    | .ok botReply =>
      let botResponse : Message :=
        { id := now + 1, text := botReply, sender := .bot, timestamp := stamp }
      (setMessages s (fun prev => prev ++ [botResponse]), .ok ())
    | .error e => (s, .error e)
  -- catch (error)
  let caught : ChatState × Except JsError Unit :=
    match tried with
    | (s1, .ok ()) => (s1, .ok ())
    | (s1, .error _) =>
      let s2 := setError s1 (some errorNote)
      let errorMessage : Message :=
        { id := now + 1, text := .str fallbackText, sender := .bot, timestamp := stamp }
      (setMessages s2 (fun prev => prev ++ [errorMessage]), .ok ())
  -- finally
  (setIsTyping caught.1 false, caught.2)

/-- One whole submission: `handleSend` runs up to the `await` and, when a
call was issued, resumes once it has settled with outcome `o`.  No other
handler runs in between, all controls being disabled while `isTyping` holds. -/
def handleSend (env : Option String) (s : ChatState) (now stamp : Int)
    (o : FetchOutcome) (now2 stamp2 : Int) : ChatState × Except JsError Unit :=
  let begun := handleSendBegin env s now stamp
  match begun.2 with
  | [] => (begun.1, .ok ())
  | _ :: _ => handleSendSettle begun.1 (getBotResponse o) now2 stamp2

/-! ## The event loop -/

/-- The component together with the `fetch` calls that have not settled. -/
structure Widget where
  ui : ChatState
  pending : List Request

/-- The widget at mount. -/
def Widget.init : Widget :=
  { ui := initialState, pending := [] }

/-- What can happen to the widget. -/
inductive Event where
  /-- The text field fires `onChange`. -/
  | change (value : String)
  /-- The Send button is clicked or Enter is pressed, at the given clock readings. -/
  | send (now stamp : Int)
  /-- The oldest outstanding call settles, at the given clock readings. -/
  | settle (o : FetchOutcome) (now stamp : Int)

/-- One event.  The text field and the button are disabled while `isTyping`
holds and the key handler tests `!isTyping`, so `change` and `send` are enabled only
while `isTyping` is false; `settle` needs an outstanding call. -/
def step (env : Option String) (w : Widget) : Event → Option Widget
  | .change value =>
    if w.ui.isTyping then none
    else some { w with ui := setInput w.ui value }
  | .send now stamp =>
    if w.ui.isTyping then none
    else
      let begun := handleSendBegin env w.ui now stamp
      some { ui := begun.1, pending := w.pending ++ begun.2 }
  | .settle o now stamp =>
    match w.pending with
    | [] => none
    | _ :: rest =>
      some { ui := (handleSendSettle w.ui (getBotResponse o) now stamp).1, pending := rest }

/-- Run a sequence of events; `none` when one of them is not enabled. -/
def run (env : Option String) (w : Widget) : List Event → Option Widget
  | [] => some w
  | e :: es =>
    match step env w e with
    | none => none
    | some w1 => run env w1 es

/-- The clock reading supplied with an event (`Date.now()` at a submit or at a
settlement); an edit of the input reads no clock. -/
def Event.clock : Event → Option Int
  | .change _ => none
  | .send now _ => some now
  | .settle _ now _ => some now

/-- The successive `Date.now()` readings of a sequence of events. -/
def clockReadings (es : List Event) : List Int :=
  es.filterMap Event.clock

/-- The text is a string and not the empty one. -/
def JsVal.isNonEmptyString : JsVal → Bool
  | .str s => s != ""
  | _ => false

/-- The senders alternate, starting with a user message. -/
def Alternates (ms : List Message) : Prop :=
  ∀ (i : Nat) (h : i < ms.length),
    (ms[i]).sender = if i % 2 = 0 then Sender.user else Sender.bot

/-- The invariant of the event loop. -/
structure Inv (env : Option String) (w : Widget) : Prop where
  typing_iff : w.ui.isTyping = true ↔ w.pending ≠ []
  pending_le : w.pending.length ≤ 1
  alt : Alternates w.ui.messages
  idle : w.ui.isTyping = false → w.ui.messages.length % 2 = 0
  busy : w.ui.isTyping = true →
    w.ui.messages.length % 2 = 1 ∧
    ∃ m t, w.ui.messages.getLast? = some m ∧ m.sender = .user ∧ m.text = .str t ∧
      w.pending = [fetchRequest env t]

/-- The bot message `m` was built by the settlement of a call during `es`: its
identifier is that settlement's clock reading plus one, and its text is the
value `getBotResponse` resolved to, or the fallback text when it rejected. -/
def BotOrigin (es : List Event) (m : Message) : Prop :=
  ∃ o now stamp, Event.settle o now stamp ∈ es ∧ m.id = now + 1 ∧ m.timestamp = stamp ∧
    (getBotResponse o = .ok m.text ∨
      ((∃ e, getBotResponse o = .error e) ∧ m.text = .str fallbackText))

/-- Where a message appended during `es` comes from: a submit (a user message
with a non-empty string as text) or a settlement. -/
def Origin (es : List Event) (m : Message) : Prop :=
  (m.sender = .user ∧ m.text.isNonEmptyString = true) ∨ (m.sender = .bot ∧ BotOrigin es m)

/-! ## Facts about `trim` -/

theorem trimChars_eq_nil_iff (cs : List Char) :
    trimChars cs = [] ↔ ∀ c ∈ cs, isWhiteSpace c = true := by
  unfold trimChars
  rw [List.reverse_eq_nil_iff, List.dropWhile_eq_nil_iff]
  constructor
  · intro h
    have hnil : cs.dropWhile isWhiteSpace = [] := by
      cases hd : cs.dropWhile isWhiteSpace with
      | nil => rfl
      | cons x xs =>
        have hx : isWhiteSpace x = true := h x (by simp [hd])
        have hhead := List.head_dropWhile_not isWhiteSpace cs (by simp [hd])
        simp [hd, hx] at hhead
    exact List.dropWhile_eq_nil_iff.mp hnil
  · intro h
    rw [List.dropWhile_eq_nil_iff.mpr h]
    simp

theorem trim_eq_empty_iff (s : String) :
    trim s = "" ↔ ∀ c ∈ s.data, isWhiteSpace c = true := by
  rw [← trimChars_eq_nil_iff]
  unfold trim
  constructor
  · intro h
    have := congrArg String.data h
    simpa using this
  · intro h
    rw [h]

/-! ## One submission -/

theorem handleSendBegin_blank (env : Option String) (s : ChatState) (now stamp : Int)
    (h : trim s.input = "") : handleSendBegin env s now stamp = (s, []) := by
  simp [handleSendBegin, h]

theorem handleSendBegin_nonblank (env : Option String) (s : ChatState) (now stamp : Int)
    (h : trim s.input ≠ "") :
    handleSendBegin env s now stamp =
      ({ messages := s.messages ++
            [{ id := now, text := .str (trim s.input), sender := .user, timestamp := stamp }]
         input := ""
         isTyping := true
         error := none },
       [fetchRequest env (trim s.input)]) := by
  simp [handleSendBegin, h, setMessages, setInput, setError, setIsTyping]

theorem handleSendSettle_ok (s : ChatState) (v : JsVal) (now stamp : Int) :
    handleSendSettle s (.ok v) now stamp =
      ({ s with
          messages := s.messages ++
            [{ id := now + 1, text := v, sender := .bot, timestamp := stamp }]
          isTyping := false },
       .ok ()) := by
  simp [handleSendSettle, setMessages, setIsTyping]

theorem handleSendSettle_error (s : ChatState) (e : JsError) (now stamp : Int) :
    handleSendSettle s (.error e) now stamp =
      ({ s with
          messages := s.messages ++
            [{ id := now + 1, text := .str fallbackText, sender := .bot, timestamp := stamp }]
          isTyping := false
          error := some errorNote },
       .ok ()) := by
  simp [handleSendSettle, setMessages, setIsTyping, setError]

/-- The three kinds of failed call all make `getBotResponse` reject. -/
theorem getBotResponse_failure (o : FetchOutcome)
    (h : (∃ e, o = .rejected e) ∨
      (∃ status body, o = .response status body ∧ responseOk status = false) ∨
      (∃ status e, o = .response status (.rejected e))) :
    ∃ e, getBotResponse o = .error e := by
  rcases h with ⟨e, rfl⟩ | ⟨status, body, rfl, hs⟩ | ⟨status, e, rfl⟩
  · exact ⟨e, rfl⟩
  · exact ⟨.http ("HTTP error! status: " ++ toString status), by simp [getBotResponse, hs]⟩
  · cases hs : responseOk status
    · exact ⟨.http ("HTTP error! status: " ++ toString status), by simp [getBotResponse, hs]⟩
    · exact ⟨e, by simp [getBotResponse, hs]⟩

/-- Claim C1: when the pending input is empty or consists only of white space,
`handleSend` changes nothing (messages, input, `isTyping` and `error` are as
before), issues no request, and completes at once; as an event of the widget
it leaves the whole widget as it was. -/
theorem handleSend_blank_noop (env : Option String) (s : ChatState) (now stamp : Int)
    (o : FetchOutcome) (now2 stamp2 : Int) (pending : List Request)
    (h : ∀ c ∈ s.input.data, isWhiteSpace c = true) :
    handleSendBegin env s now stamp = (s, []) ∧
    handleSend env s now stamp o now2 stamp2 = (s, .ok ()) ∧
    (s.isTyping = false →
      step env { ui := s, pending := pending } (.send now stamp) =
        some { ui := s, pending := pending }) := by
  have ht : trim s.input = "" := (trim_eq_empty_iff _).mpr h
  have hb := handleSendBegin_blank env s now stamp ht
  refine ⟨hb, ?_, ?_⟩
  · simp [handleSend, hb]
  · intro hidle
    simp [step, hidle, hb]

theorem handleSend_blank_noop_witness :
    (∀ c ∈ ({ initialState with input := " \t  " } : ChatState).input.data,
        isWhiteSpace c = true) ∧
    handleSendBegin none { initialState with input := " \t  " } 7 7
      = ({ initialState with input := " \t  " }, []) :=
  ⟨by decide,
   (handleSend_blank_noop none { initialState with input := " \t  " } 7 7
      (.rejected (.network "")) 8 8 [] (by decide)).1⟩

/-- Claim C4: right after `handleSend` is invoked on an input whose trimmed
form is not empty, and before the call settles, the transcript is the old one
with exactly one user message carrying the trimmed text appended, the pending
input is the empty string, `error` is null and `isTyping` is true. -/
theorem handleSendBegin_state (env : Option String) (s : ChatState) (now stamp : Int)
    (h : trim s.input ≠ "") :
    (handleSendBegin env s now stamp).1 =
      { messages := s.messages ++
          [{ id := now, text := .str (trim s.input), sender := .user, timestamp := stamp }]
        input := ""
        isTyping := true
        error := none } := by
  rw [handleSendBegin_nonblank env s now stamp h]

theorem handleSendBegin_state_witness :
    trim ({ initialState with input := "  Hi ", error := some errorNote } : ChatState).input ≠ "" ∧
    (handleSendBegin none { initialState with input := "  Hi ", error := some errorNote } 5 6).1 =
      { messages := [{ id := 5, text := .str "Hi", sender := .user, timestamp := 6 }]
        input := ""
        isTyping := true
        error := none } :=
  ⟨by decide,
   handleSendBegin_state none { initialState with input := "  Hi ", error := some errorNote } 5 6
     (by decide)⟩

/-- Claim C2: starting from a transcript `T` with an input whose trimmed form
`t` is not empty, when the call settles with a 2xx response whose JSON body is
an object with `reply` equal to the string `r`, the transcript is exactly `T`,
then the user message `t`, then the bot message `r`, `error` is null, and the
handler completes normally. -/
theorem handleSend_success (env : Option String) (s : ChatState) (now stamp : Int)
    (status : Nat) (members : List (String × JsVal)) (r : String) (now2 stamp2 : Int)
    (h : trim s.input ≠ "") (hok : responseOk status = true)
    (hr : ownProperty "reply" members = some (.str r)) :
    handleSend env s now stamp (.response status (.parsed (.obj members))) now2 stamp2 =
      ({ messages := s.messages ++
          [{ id := now, text := .str (trim s.input), sender := .user, timestamp := stamp },
           { id := now2 + 1, text := .str r, sender := .bot, timestamp := stamp2 }]
         input := ""
         isTyping := false
         error := none },
       .ok ()) := by
  have hg : getBotResponse (.response status (.parsed (.obj members))) = .ok (.str r) := by
    simp [getBotResponse, hok, getProperty, hr]
  simp [handleSend, handleSendBegin_nonblank env s now stamp h, hg, handleSendSettle_ok]

theorem handleSend_success_witness :
    trim ({ initialState with input := "Hi" } : ChatState).input ≠ "" ∧
    responseOk 200 = true ∧
    ownProperty "reply" [("reply", JsVal.str "Hello!")] = some (.str "Hello!") ∧
    handleSend none { initialState with input := "Hi" } 1000 1000
        (.response 200 (.parsed (.obj [("reply", .str "Hello!")]))) 1500 1500 =
      ({ messages :=
          [{ id := 1000, text := .str "Hi", sender := .user, timestamp := 1000 },
           { id := 1501, text := .str "Hello!", sender := .bot, timestamp := 1500 }]
         input := ""
         isTyping := false
         error := none },
       .ok ()) :=
  ⟨by decide, by decide, rfl,
   handleSend_success none { initialState with input := "Hi" } 1000 1000 200
     [("reply", .str "Hello!")] "Hello!" 1500 1500 (by decide) (by decide) rfl⟩

/-- Claim C3: starting from a transcript `T` with an input whose trimmed form
`t` is not empty, when the call fails (the transport fails, the status is not
2xx, or reading the body raises), the transcript is exactly `T`, then the user
message `t`, then one bot message with the fixed fallback text, `error` is the
fixed note, and the handler completes normally; the result does not depend on
the kind of failure or on the status. -/
theorem handleSend_failure (env : Option String) (s : ChatState) (now stamp : Int)
    (o : FetchOutcome) (now2 stamp2 : Int)
    (h : trim s.input ≠ "")
    (hfail : (∃ e, o = .rejected e) ∨
      (∃ status body, o = .response status body ∧ responseOk status = false) ∨
      (∃ status e, o = .response status (.rejected e))) :
    handleSend env s now stamp o now2 stamp2 =
      ({ messages := s.messages ++
          [{ id := now, text := .str (trim s.input), sender := .user, timestamp := stamp },
           { id := now2 + 1
             text := .str "Sorry, I'm having trouble connecting. Please check if the backend is running."
             sender := .bot
             timestamp := stamp2 }]
         input := ""
         isTyping := false
         error := some "Failed to get response. Please try again." },
       .ok ()) := by
  obtain ⟨e, he⟩ := getBotResponse_failure o hfail
  simp [handleSend, handleSendBegin_nonblank env s now stamp h, he, handleSendSettle_error,
    fallbackText, errorNote]

theorem handleSend_failure_witness :
    trim ({ initialState with input := "Hi" } : ChatState).input ≠ "" ∧
    (handleSend none { initialState with input := "Hi" } 1000 1000
        (.response 500 (.parsed (.obj [("reply", .str "Hello!")]))) 1500 1500).1.error =
      some "Failed to get response. Please try again." :=
  ⟨by decide,
   by rw [handleSend_failure none { initialState with input := "Hi" } 1000 1000
     (.response 500 (.parsed (.obj [("reply", .str "Hello!")]))) 1500 1500 (by decide)
     (Or.inr (Or.inl ⟨500, _, rfl, by decide⟩))]⟩

/-- Claim C10: a submission with non-blank input issues exactly one request:
method POST, URL `API_URL` followed by `/chat`, the single header
`Content-Type: application/json`, and as body the JSON text of the object
whose only member `message` is the trimmed input, the very string stored as
the text of the user message that the submission appends.  `API_URL` is
`http://localhost:8000` when the setting is absent (or the empty string) and
the setting itself when it is a non-empty string. -/
theorem handleSendBegin_request (env : Option String) (s : ChatState) (now stamp : Int)
    (h : trim s.input ≠ "") :
    (handleSendBegin env s now stamp).2 =
      [{ url := API_URL env ++ "/chat"
         method := "POST"
         headers := [("Content-Type", "application/json")]
         body := stringifyMessage (trim s.input) }] ∧
    (handleSendBegin env s now stamp).1.messages =
      s.messages ++
        [{ id := now, text := .str (trim s.input), sender := .user, timestamp := stamp }] ∧
    API_URL none = "http://localhost:8000" ∧
    API_URL (some "") = "http://localhost:8000" ∧
    (∀ v : String, v ≠ "" → API_URL (some v) = v) := by
  rw [handleSendBegin_nonblank env s now stamp h]
  refine ⟨rfl, rfl, rfl, rfl, ?_⟩
  intro v hv
  simp [API_URL, hv]

theorem handleSendBegin_request_witness :
    trim ({ initialState with input := " say \"hi\" " } : ChatState).input ≠ "" ∧
    (handleSendBegin none { initialState with input := " say \"hi\" " } 5 6).2 =
      [{ url := "http://localhost:8000/chat"
         method := "POST"
         headers := [("Content-Type", "application/json")]
         body := "\x7b\"message\":\"say \\\"hi\\\"\"\x7d" }] :=
  ⟨by decide,
   (handleSendBegin_request none { initialState with input := " say \"hi\" " } 5 6
     (by decide)).1⟩

/-! ## The event loop -/

theorem step_change (env : Option String) (w w1 : Widget) (value : String)
    (h : step env w (.change value) = some w1) :
    w.ui.isTyping = false ∧ w1 = { w with ui := setInput w.ui value } := by
  cases ht : w.ui.isTyping <;> simp [step, ht] at h
  exact ⟨rfl, h.symm⟩

theorem step_send (env : Option String) (w w1 : Widget) (now stamp : Int)
    (h : step env w (.send now stamp) = some w1) :
    w.ui.isTyping = false ∧
    w1 = { ui := (handleSendBegin env w.ui now stamp).1
           pending := w.pending ++ (handleSendBegin env w.ui now stamp).2 } := by
  cases ht : w.ui.isTyping <;> simp [step, ht] at h
  exact ⟨rfl, h.symm⟩

theorem step_settle (env : Option String) (w w1 : Widget) (o : FetchOutcome) (now stamp : Int)
    (h : step env w (.settle o now stamp) = some w1) :
    ∃ p rest, w.pending = p :: rest ∧
      w1 = { ui := (handleSendSettle w.ui (getBotResponse o) now stamp).1, pending := rest } := by
  cases hp : w.pending with
  | nil => simp [step, hp] at h
  | cons p rest =>
    simp [step, hp] at h
    exact ⟨p, rest, rfl, h.symm⟩

/-- A property kept by every enabled event of a given kind holds after every
run made of events of that kind. -/
theorem run_induction_on (env : Option String) (P : Widget → Prop) (Q : Event → Prop)
    (hstep : ∀ w e w1, Q e → P w → step env w e = some w1 → P w1) :
    ∀ (es : List Event) (w0 w : Widget),
      (∀ e ∈ es, Q e) → P w0 → run env w0 es = some w → P w := by
  intro es
  induction es with
  | nil =>
    intro w0 w _ h0 h
    simp [run] at h
    exact h ▸ h0
  | cons e es ih =>
    intro w0 w hq h0 h
    cases hs : step env w0 e with
    | none => simp [run, hs] at h
    | some w1 =>
      simp [run, hs] at h
      exact ih w1 w (fun e1 he1 => hq e1 (List.mem_cons_of_mem _ he1))
        (hstep w0 e w1 (hq e (List.mem_cons_self _ _)) h0 hs) h

/-- A property kept by every enabled event holds after every run. -/
theorem run_induction (env : Option String) (P : Widget → Prop)
    (hstep : ∀ w e w1, P w → step env w e = some w1 → P w1)
    (es : List Event) (w0 w : Widget) (h0 : P w0) (h : run env w0 es = some w) : P w :=
  run_induction_on env P (fun _ => True) (fun w e w1 _ hw hs => hstep w e w1 hw hs)
    es w0 w (fun _ _ => trivial) h0 h

theorem alternates_append (ms : List Message) (m : Message) (h : Alternates ms)
    (hm : m.sender = if ms.length % 2 = 0 then Sender.user else Sender.bot) :
    Alternates (ms ++ [m]) := by
  intro i hi
  by_cases hlt : i < ms.length
  · rw [List.getElem_append_left hlt]
    exact h i hlt
  · have hi1 : i = ms.length := by
      simp at hi
      omega
    subst hi1
    simp [hm]

theorem handleSendSettle_state (s : ChatState) (r : Except JsError JsVal) (now stamp : Int) :
    ∃ m : Message, m.sender = .bot ∧ m.id = now + 1 ∧
      (m.text = .str fallbackText ∨ r = .ok m.text) ∧
      (handleSendSettle s r now stamp).1.messages = s.messages ++ [m] ∧
      (handleSendSettle s r now stamp).1.isTyping = false ∧
      (handleSendSettle s r now stamp).2 = .ok () := by
  cases r with
  | ok v =>
    rw [handleSendSettle_ok]
    exact ⟨_, rfl, rfl, Or.inr rfl, rfl, rfl, rfl⟩
  | error e =>
    rw [handleSendSettle_error]
    exact ⟨_, rfl, rfl, Or.inl rfl, rfl, rfl, rfl⟩

theorem inv_init (env : Option String) : Inv env Widget.init where
  typing_iff := by simp [Widget.init, initialState]
  pending_le := by simp [Widget.init]
  alt := by
    intro i hi
    simp [Widget.init, initialState] at hi
  idle := by simp [Widget.init, initialState]
  busy := by simp [Widget.init, initialState]

theorem inv_step (env : Option String) (w : Widget) (e : Event) (w1 : Widget)
    (hinv : Inv env w) (h : step env w e = some w1) : Inv env w1 := by
  cases e with
  | change value =>
    obtain ⟨_, rfl⟩ := step_change env w w1 value h
    exact ⟨hinv.typing_iff, hinv.pending_le, hinv.alt, hinv.idle, hinv.busy⟩
  | send now stamp =>
    obtain ⟨hidle, rfl⟩ := step_send env w w1 now stamp h
    have hp : w.pending = [] := by
      by_contra hne
      have := hinv.typing_iff.mpr hne
      simp [hidle] at this
    by_cases hb : trim w.ui.input = ""
    · rw [handleSendBegin_blank env w.ui now stamp hb]
      simp only [List.append_nil]
      exact ⟨hinv.typing_iff, hinv.pending_le, hinv.alt, hinv.idle, hinv.busy⟩
    · rw [handleSendBegin_nonblank env w.ui now stamp hb]
      have heven := hinv.idle hidle
      refine ⟨by simp, by simp [hp], ?_, by simp, ?_⟩
      · exact alternates_append _ _ hinv.alt (by simp [heven])
      · intro _
        refine ⟨by simp; omega,
          { id := now, text := .str (trim w.ui.input), sender := .user, timestamp := stamp },
          trim w.ui.input, by simp, rfl, rfl, by simp [hp]⟩
  | settle o now stamp =>
    obtain ⟨p, rest, hp, rfl⟩ := step_settle env w w1 o now stamp h
    have hrest : rest = [] := by
      have := hinv.pending_le
      rw [hp] at this
      simp at this
      exact this
    have hbusy : w.ui.isTyping = true := hinv.typing_iff.mpr (by simp [hp])
    have hodd := (hinv.busy hbusy).1
    obtain ⟨m, hm, _, _, hmsgs, htyping, _⟩ :=
      handleSendSettle_state w.ui (getBotResponse o) now stamp
    refine ⟨by simp [htyping, hrest], by simp [hrest], ?_, ?_, by simp [htyping]⟩
    · simp only [hmsgs]
      exact alternates_append _ _ hinv.alt (by simp [hodd, hm])
    · intro _
      simp only [hmsgs]
      simp
      omega

theorem inv_run (env : Option String) (es : List Event) (w : Widget)
    (h : run env Widget.init es = some w) : Inv env w :=
  run_induction env (Inv env) (fun w e w1 hw hs => inv_step env w e w1 hw hs)
    es Widget.init w (inv_init env) h

theorem alternates_last_bot (ms : List Message) (h : Alternates ms)
    (heven : ms.length % 2 = 0) (hne : ms ≠ []) :
    ∃ m, ms.getLast? = some m ∧ m.sender = .bot := by
  have hpos : 0 < ms.length := List.length_pos.mpr hne
  have hlen : ms.length - 1 < ms.length := by omega
  refine ⟨ms[ms.length - 1], ?_, ?_⟩
  · rw [List.getLast?_eq_getElem?, List.getElem?_eq_getElem hlen]
  · rw [h _ hlen]
    have : (ms.length - 1) % 2 = 1 := by omega
    simp [this]

/-- Claim C5: in every state reached from the initial one, `isTyping` is true
exactly when a call has been started and has not settled.  It is false
initially, true after every non-blank submit, false after every settlement
whatever the outcome, and while it is true a settlement with any outcome is
enabled. -/
theorem isTyping_iff_call_outstanding (env : Option String) (es : List Event) (w : Widget)
    (h : run env Widget.init es = some w) :
    (w.ui.isTyping = true ↔ w.pending ≠ []) ∧
    Widget.init.ui.isTyping = false ∧
    (∀ now stamp w1, trim w.ui.input ≠ "" → step env w (.send now stamp) = some w1 →
      w1.ui.isTyping = true ∧ w1.pending ≠ []) ∧
    (∀ o now stamp w1, step env w (.settle o now stamp) = some w1 →
      w1.ui.isTyping = false ∧ w1.pending = []) ∧
    (w.ui.isTyping = true → ∀ o now stamp, ∃ w1, step env w (.settle o now stamp) = some w1) := by
  have hinv := inv_run env es w h
  refine ⟨hinv.typing_iff, rfl, ?_, ?_, ?_⟩
  · intro now stamp w1 hb hs
    have hinv1 := inv_step env w _ w1 hinv hs
    obtain ⟨_, rfl⟩ := step_send env w w1 now stamp hs
    rw [handleSendBegin_nonblank env w.ui now stamp hb]
    simp
  · intro o now stamp w1 hs
    have hinv1 := inv_step env w _ w1 hinv hs
    obtain ⟨p, rest, hp, rfl⟩ := step_settle env w w1 o now stamp hs
    obtain ⟨m, _, _, _, _, htyping, _⟩ :=
      handleSendSettle_state w.ui (getBotResponse o) now stamp
    refine ⟨htyping, ?_⟩
    by_contra hne
    have := hinv1.typing_iff.mpr hne
    simp [htyping] at this
  · intro hbusy o now stamp
    have hne := hinv.typing_iff.mp hbusy
    cases hp : w.pending with
    | nil => exact absurd hp hne
    | cons p rest =>
      exact ⟨{ ui := (handleSendSettle w.ui (getBotResponse o) now stamp).1, pending := rest },
        by simp [step, hp]⟩

theorem isTyping_iff_call_outstanding_witness :
    run none Widget.init [.change "Hi", .send 1000 1000] =
      some { ui := { messages := [{ id := 1000, text := .str "Hi", sender := .user, timestamp := 1000 }]
                     input := ""
                     isTyping := true
                     error := none }
             pending := [fetchRequest none "Hi"] } ∧
    ((true = true) ↔ [fetchRequest none "Hi"] ≠ []) :=
  ⟨rfl, (isTyping_iff_call_outstanding none [.change "Hi", .send 1000 1000] _ rfl).1⟩

/-- Claim C6: in every state reached from the initial one at most one call is
outstanding and the senders alternate user, bot, user, bot, ...  While
`isTyping` is false the transcript has even length and, unless empty, ends
with a bot message; while it is true the transcript has odd length and ends
with the user message whose text is in the outstanding request. -/
theorem transcript_alternates (env : Option String) (es : List Event) (w : Widget)
    (h : run env Widget.init es = some w) :
    w.pending.length ≤ 1 ∧
    (∀ (i : Nat) (hi : i < w.ui.messages.length),
      (w.ui.messages[i]).sender = if i % 2 = 0 then Sender.user else Sender.bot) ∧
    (w.ui.isTyping = false →
      w.ui.messages.length % 2 = 0 ∧
      (w.ui.messages ≠ [] → ∃ m, w.ui.messages.getLast? = some m ∧ m.sender = .bot)) ∧
    (w.ui.isTyping = true →
      w.ui.messages.length % 2 = 1 ∧
      ∃ m t, w.ui.messages.getLast? = some m ∧ m.sender = .user ∧ m.text = .str t ∧
        w.pending = [fetchRequest env t]) := by
  have hinv := inv_run env es w h
  refine ⟨hinv.pending_le, hinv.alt, ?_, hinv.busy⟩
  intro hidle
  exact ⟨hinv.idle hidle, alternates_last_bot _ hinv.alt (hinv.idle hidle)⟩

theorem transcript_alternates_witness :
    run none Widget.init
        [.change "Hi", .send 1000 1000, .settle (.rejected (.network "Failed to fetch")) 1500 1500,
         .change " again ", .send 2000 2000] =
      some { ui := { messages :=
                      [{ id := 1000, text := .str "Hi", sender := .user, timestamp := 1000 },
                       { id := 1501, text := .str fallbackText, sender := .bot, timestamp := 1500 },
                       { id := 2000, text := .str "again", sender := .user, timestamp := 2000 }]
                     input := ""
                     isTyping := true
                     error := none }
             pending := [fetchRequest none "again"] } ∧
    [fetchRequest none "again"].length ≤ 1 :=
  ⟨rfl,
   (transcript_alternates none
      [.change "Hi", .send 1000 1000, .settle (.rejected (.network "Failed to fetch")) 1500 1500,
       .change " again ", .send 2000 2000] _ rfl).1⟩

theorem step_messages_extend (env : Option String) (w : Widget) (e : Event) (w1 : Widget)
    (h : step env w e = some w1) : ∃ added, w1.ui.messages = w.ui.messages ++ added := by
  cases e with
  | change value =>
    obtain ⟨_, rfl⟩ := step_change env w w1 value h
    exact ⟨[], by simp [setInput]⟩
  | send now stamp =>
    obtain ⟨_, rfl⟩ := step_send env w w1 now stamp h
    by_cases hb : trim w.ui.input = ""
    · exact ⟨[], by simp [handleSendBegin_blank env w.ui now stamp hb]⟩
    · exact ⟨_, by rw [handleSendBegin_nonblank env w.ui now stamp hb]⟩
  | settle o now stamp =>
    obtain ⟨p, rest, _, rfl⟩ := step_settle env w w1 o now stamp h
    obtain ⟨m, _, _, _, hmsgs, _, _⟩ := handleSendSettle_state w.ui (getBotResponse o) now stamp
    exact ⟨[m], hmsgs⟩

/-- Claim C7: the transcript is append-only.  Each operation of the widget
(`handleSend` up to the `await`, on blank and on non-blank input; the
settlement of the call, on success and on failure; an edit of the input) and
every run of events leaves the previous transcript as an initial segment of
the new one. -/
theorem transcript_append_only (env : Option String) (s : ChatState) (now stamp : Int)
    (r : Except JsError JsVal) (value : String) (w w1 : Widget) (es : List Event) :
    s.messages <+: (handleSendBegin env s now stamp).1.messages ∧
    s.messages <+: (handleSendSettle s r now stamp).1.messages ∧
    s.messages <+: (setInput s value).messages ∧
    (run env w es = some w1 → w.ui.messages <+: w1.ui.messages) := by
  refine ⟨?_, ?_, ⟨[], by simp [setInput]⟩, ?_⟩
  · by_cases hb : trim s.input = ""
    · exact ⟨[], by simp [handleSendBegin_blank env s now stamp hb]⟩
    · exact ⟨_, by rw [handleSendBegin_nonblank env s now stamp hb]⟩
  · obtain ⟨m, _, _, _, hmsgs, _, _⟩ := handleSendSettle_state s r now stamp
    exact ⟨[m], hmsgs.symm⟩
  · intro h
    refine run_induction env (fun x => w.ui.messages <+: x.ui.messages) ?_ es w w1 ⟨[], by simp⟩ h
    intro x e x1 hx hs
    obtain ⟨t, ht⟩ := hx
    obtain ⟨added, hadd⟩ := step_messages_extend env x e x1 hs
    exact ⟨t ++ added, by rw [hadd, ← ht, List.append_assoc]⟩

theorem transcript_append_only_witness :
    run none { ui := { initialState with input := "Hi" }, pending := [] }
        [.send 1000 1000, .settle (.response 503 (.rejected (.body "Unexpected token"))) 1500 1500] =
      some { ui := { messages :=
                      [{ id := 1000, text := .str "Hi", sender := .user, timestamp := 1000 },
                       { id := 1501, text := .str fallbackText, sender := .bot, timestamp := 1500 }]
                     input := ""
                     isTyping := false
                     error := some errorNote }
             pending := [] } ∧
    ([] : List Message) <+:
      [{ id := 1000, text := .str "Hi", sender := .user, timestamp := 1000 },
       { id := 1501, text := .str fallbackText, sender := .bot, timestamp := 1500 }] :=
  ⟨rfl,
   (transcript_append_only none initialState 0 0 (.ok .null) ""
      { ui := { initialState with input := "Hi" }, pending := [] } _
      [.send 1000 1000, .settle (.response 503 (.rejected (.body "Unexpected token"))) 1500 1500]).2.2.2
     rfl⟩

/-- Claim C8: identifiers are not unique.  With strictly increasing clock
readings 1000 (submit), 1500 (settlement) and 1501 (next submit) the bot
message gets `1500 + 1` and the next user message gets `1501`: the transcript
holds two messages with identifier 1501. -/
theorem message_ids_collide :
    run none Widget.init
        [.change "Hi", .send 1000 1000,
         .settle (.response 200 (.parsed (.obj [("reply", .str "Hello!")]))) 1500 1500,
         .change "Thanks", .send 1501 1501] =
      some { ui := { messages :=
                      [{ id := 1000, text := .str "Hi", sender := .user, timestamp := 1000 },
                       { id := 1501, text := .str "Hello!", sender := .bot, timestamp := 1500 },
                       { id := 1501, text := .str "Thanks", sender := .user, timestamp := 1501 }]
                     input := ""
                     isTyping := true
                     error := none }
             pending := [fetchRequest none "Thanks"] } ∧
    clockReadings
        [.change "Hi", .send 1000 1000,
         .settle (.response 200 (.parsed (.obj [("reply", .str "Hello!")]))) 1500 1500,
         .change "Thanks", .send 1501 1501] = [1000, 1500, 1501] ∧
    ¬ ([1000, 1501, 1501] : List Int).Nodup :=
  ⟨rfl, rfl, by decide⟩

/-- Claim C9, as stated, fails: a 2xx response whose `reply` is the empty
string puts a bot message with empty text into the transcript. -/
theorem message_text_may_be_empty :
    ¬ (∀ (env : Option String) (es : List Event) (w : Widget),
        run env Widget.init es = some w →
        ∀ m ∈ w.ui.messages, m.text.isNonEmptyString = true) := by
  intro hall
  have h := hall none
    [.change "Hi", .send 1000 1000,
     .settle (.response 200 (.parsed (.obj [("reply", .str "")]))) 1500 1500]
    { ui := { messages :=
                [{ id := 1000, text := .str "Hi", sender := .user, timestamp := 1000 },
                 { id := 1501, text := .str "", sender := .bot, timestamp := 1500 }]
              input := ""
              isTyping := false
              error := none }
      pending := [] }
    rfl { id := 1501, text := .str "", sender := .bot, timestamp := 1500 }
    (List.Mem.tail _ (List.Mem.head _))
  simp [JsVal.isNonEmptyString] at h

theorem origin_mono (es es1 : List Event) (m : Message) (hsub : ∀ e ∈ es, e ∈ es1)
    (h : Origin es m) : Origin es1 m := by
  rcases h with hu | ⟨hb, o, now, stamp, hmem, hrest⟩
  · exact Or.inl hu
  · exact Or.inr ⟨hb, o, now, stamp, hsub _ hmem, hrest⟩

theorem step_origin (env : Option String) (w : Widget) (e : Event) (w1 : Widget)
    (h : step env w e = some w1) :
    ∀ m ∈ w1.ui.messages, m ∈ w.ui.messages ∨ Origin [e] m := by
  cases e with
  | change value =>
    obtain ⟨_, rfl⟩ := step_change env w w1 value h
    intro m hm
    exact Or.inl hm
  | send now stamp =>
    obtain ⟨_, rfl⟩ := step_send env w w1 now stamp h
    by_cases hb : trim w.ui.input = ""
    · rw [handleSendBegin_blank env w.ui now stamp hb]
      intro m hm
      exact Or.inl hm
    · rw [handleSendBegin_nonblank env w.ui now stamp hb]
      intro m hm
      simp only [List.mem_append, List.mem_singleton] at hm
      rcases hm with hm | rfl
      · exact Or.inl hm
      · exact Or.inr (Or.inl ⟨rfl, by simp [JsVal.isNonEmptyString, hb]⟩)
  | settle o now stamp =>
    obtain ⟨p, rest, _, rfl⟩ := step_settle env w w1 o now stamp h
    intro m hm
    cases hr : getBotResponse o with
    | ok v =>
      simp only [hr, handleSendSettle_ok, List.mem_append, List.mem_singleton] at hm
      rcases hm with hm | rfl
      · exact Or.inl hm
      · exact Or.inr (Or.inr ⟨rfl, o, now, stamp, List.mem_singleton.mpr rfl, rfl, rfl,
          Or.inl hr⟩)
    | error err =>
      simp only [hr, handleSendSettle_error, List.mem_append, List.mem_singleton] at hm
      rcases hm with hm | rfl
      · exact Or.inl hm
      · exact Or.inr (Or.inr ⟨rfl, o, now, stamp, List.mem_singleton.mpr rfl, rfl, rfl,
          Or.inr ⟨⟨err, hr⟩, rfl⟩⟩)

theorem run_origin (env : Option String) :
    ∀ (es : List Event) (w0 w : Widget), run env w0 es = some w →
      ∀ m ∈ w.ui.messages, m ∈ w0.ui.messages ∨ Origin es m := by
  intro es
  induction es with
  | nil =>
    intro w0 w h m hm
    simp [run] at h
    subst h
    exact Or.inl hm
  | cons e es ih =>
    intro w0 w h m hm
    cases hs : step env w0 e with
    | none => simp [run, hs] at h
    | some w1 =>
      simp [run, hs] at h
      rcases ih w1 w h m hm with h1 | h1
      · rcases step_origin env w0 e w1 hs m h1 with h0 | h0
        · exact Or.inl h0
        · refine Or.inr (origin_mono [e] (e :: es) m ?_ h0)
          intro x hx
          rw [List.mem_singleton.mp hx]
          exact List.mem_cons_self _ _
      · exact Or.inr (origin_mono es (e :: es) m (fun x hx => List.mem_cons_of_mem _ hx) h1)

/-- Claim C9, amended: in every state reached from the initial one, every user
message has a non-empty string as text; every bot message was built by one
settlement of the run, has that settlement's clock reading plus one as
identifier, and carries the value `getBotResponse` resolved to unchanged, or
the fixed fallback text when it rejected; so a message whose text is not a
non-empty string is a bot message carrying such a resolved `reply`. -/
theorem message_text_nonEmpty (env : Option String) (es : List Event) (w : Widget)
    (h : run env Widget.init es = some w) :
    ∀ m ∈ w.ui.messages,
      (m.sender = .user → m.text.isNonEmptyString = true) ∧
      (m.sender = .bot →
        ∃ o now stamp, Event.settle o now stamp ∈ es ∧ m.id = now + 1 ∧ m.timestamp = stamp ∧
          (getBotResponse o = .ok m.text ∨
            ((∃ e, getBotResponse o = .error e) ∧ m.text = .str fallbackText))) ∧
      (m.text.isNonEmptyString = false →
        m.sender = .bot ∧
        ∃ o now stamp, Event.settle o now stamp ∈ es ∧ m.id = now + 1 ∧ m.timestamp = stamp ∧
          getBotResponse o = .ok m.text) := by
  intro m hm
  have hfb : (JsVal.str fallbackText).isNonEmptyString = true := by decide
  rcases run_origin env es Widget.init w h m hm with h0 | hu | ⟨hb, o, now, stamp, hmem, hid, hts, hr⟩
  · simp [Widget.init, initialState] at h0
  · refine ⟨fun _ => hu.2, ?_, ?_⟩
    · intro hbot
      rw [hu.1] at hbot
      cases hbot
    · intro hne
      rw [hu.2] at hne
      cases hne
  · refine ⟨?_, fun _ => ⟨o, now, stamp, hmem, hid, hts, hr⟩, ?_⟩
    · intro huser
      rw [hb] at huser
      cases huser
    · intro hne
      rcases hr with hok | ⟨_, hfall⟩
      · exact ⟨hb, o, now, stamp, hmem, hid, hts, hok⟩
      · rw [hfall, hfb] at hne
        cases hne

theorem message_text_nonEmpty_witness :
    run none Widget.init
        [.change "Hi", .send 1000 1000,
         .settle (.response 200 (.parsed (.obj [("reply", .str "Hello!")]))) 1500 1500] =
      some { ui := { messages :=
                      [{ id := 1000, text := .str "Hi", sender := .user, timestamp := 1000 },
                       { id := 1501, text := .str "Hello!", sender := .bot, timestamp := 1500 }]
                     input := ""
                     isTyping := false
                     error := none }
             pending := [] } ∧
    (∃ o now stamp,
      Event.settle o now stamp ∈
        [Event.change "Hi", .send 1000 1000,
         .settle (.response 200 (.parsed (.obj [("reply", .str "Hello!")]))) 1500 1500] ∧
      (1501 : Int) = now + 1 ∧ (1500 : Int) = stamp ∧
      (getBotResponse o = .ok (.str "Hello!") ∨
        ((∃ e, getBotResponse o = .error e) ∧ JsVal.str "Hello!" = .str fallbackText))) :=
  ⟨rfl,
   (message_text_nonEmpty none
      [.change "Hi", .send 1000 1000,
       .settle (.response 200 (.parsed (.obj [("reply", .str "Hello!")]))) 1500 1500]
      { ui := { messages :=
                  [{ id := 1000, text := .str "Hi", sender := .user, timestamp := 1000 },
                   { id := 1501, text := .str "Hello!", sender := .bot, timestamp := 1500 }]
                input := ""
                isTyping := false
                error := none }
        pending := [] }
      rfl
      { id := 1501, text := .str "Hello!", sender := .bot, timestamp := 1500 }
      (List.Mem.tail _ (List.Mem.head _))).2.1 rfl⟩

end ChatBot
